import Mathlib

/-!
# sqlpp11-connector-mysql: result cursor, connection entry points, transactions

A shallow embedding of `include/sqlpp11/mysql/char_result.h` and
`include/sqlpp11/mysql/connection.h`.

* C++ member functions that mutate `*this` or an argument become functions that
  return the new values.
* A C++ exception is the `error` alternative of `Except exception`; where the
  state reached by a throwing call is still observed afterwards, the function
  returns the outcome together with the state (`Eff`).
* Template parameters (`ResultRow`, `Select`, `PreparedSelect`, ...) become
  records of the operations the header uses on them.
* Members that are declared in the headers but defined in translation units
  outside the two headers are taken as parameters (`connection`), or, where a
  property is about their behaviour, modelled from the specification; such
  definitions say so in their doc comment.
-/

namespace sqlpp

/-- Modelled from the spec: `sqlpp::exception` (sqlpp11/exception.h) is not part of this
repository; section 7 names the kinds of error that propagate to the caller. -/
inductive error_kind where
  | ConnectionError
  | QueryExecutionError
  | DecodeError
  | ParameterBindingError
  | TransactionStateError
deriving DecidableEq, Repr

/-- Modelled from the spec: an exception of class `sqlpp::exception`, as its kind
(section 7) and the text `what()` returns. -/
structure exception where
  kind : error_kind
  what : String
deriving DecidableEq, Repr

/-- Modelled from the spec: the raw value of one column of a fetched record (section 4.2:
bytes, length and null flag): `none` is SQL NULL, otherwise the bytes of the value. -/
abbrev column := Option String

/-- Modelled from the spec: `sqlpp::char_result_row_t` (sqlpp11/char_result_row.h) is not
part of this repository. char_result.h tests its member `data` as a pointer: it is null
(`none`) when the driver delivered no record, and otherwise points to the record, which
has one entry per column (section 4.2). -/
structure char_result_row_t where
  data : Option (List column)
deriving DecidableEq, Repr

/-- The operations `char_result_t::next` uses on its template parameter `ResultRow`:
assignment from a `char_result_row_t`, which is the decode step and may raise a decode
error (section 4.2), and `invalidate()`. -/
structure ResultRow (Row : Type) where
  assign : Row → char_result_row_t → Except exception Row
  invalidate : Row → Row

namespace mysql

namespace detail

/-- Modelled from the spec: `detail::result_handle` is only forward-declared in
char_result.h. It is the native result set of one executed query: the identity of the
native resource, and the outcomes the driver will deliver to successive fetches (a record,
or a driver-level failure), in order; when none is left the driver signals end-of-data. -/
structure result_handle where
  addr : Nat
  pending : List (Except exception (List column))

end detail

/-- The class `char_result_t`: `_handle` is the `std::unique_ptr<detail::result_handle>`
(`none` when empty), `_char_result_row` the record fetched last. -/
structure char_result_t where
  _handle : Option detail.result_handle
  _char_result_row : char_result_row_t

/-- The pointer held by `_handle` (`std::unique_ptr::get`): the identity of the native
resource, `none` for the null pointer. -/
def char_result_t.get (self : char_result_t) : Option Nat :=
  self._handle.map (fun h => h.addr)

/-- The member `char_result_t::operator==`: `_handle == rhs._handle`, which for
`std::unique_ptr` compares the two held pointers. -/
def char_result_t.operator_eq (self rhs : char_result_t) : Bool :=
  decide (self.get = rhs.get)

/-- The member template `char_result_t::next`, for a row type with operations `ops` and
with the private `next_impl` (declared in the header, defined elsewhere) as a parameter.
Returns the result object and the row as they are after the call. -/
def char_result_t.next {Row : Type} (ops : ResultRow Row)
    (next_impl : char_result_t → Except exception char_result_t)
    (self : char_result_t) (result_row : Row) : Except exception (char_result_t × Row) :=
  match next_impl self with
  | .error e => .error e
  | .ok self' =>
    if self'._char_result_row.data.isSome then
      match ops.assign result_row self'._char_result_row with
      | .error e => .error e
      | .ok row' => .ok (self', row')
    else
      .ok (self', ops.invalidate result_row)

/-- Modelled from the spec: `char_result_t::next_impl` is declared in char_result.h and
defined elsewhere. Section 4.2 (`advance()`): it requests the next record of the result
handle from the driver and leaves in `_char_result_row` either the record or the
end-of-data signal; a driver-level failure while fetching surfaces as an error. The
sequence of records is forward-only, finite and terminated by end-of-data (section 6); an
empty handle has no record to deliver. -/
def char_result_t.next_impl (self : char_result_t) : Except exception char_result_t :=
  match self._handle with
  | none => .ok { self with _char_result_row := ⟨none⟩ }
  | some h =>
    match h.pending with
    | [] => .ok { self with _char_result_row := ⟨none⟩ }
    | .error e :: _ => .error e
    | .ok record :: rest =>
      .ok { _handle := some { h with pending := rest }, _char_result_row := ⟨some record⟩ }

/-- Modelled from the spec: one declared field of a row (section 3): its name, its
declared type and its current value. -/
structure result_field (T V : Type) where
  name : String
  type : T
  value : V

/-- Modelled from the spec: the row type is supplied by the application (sqlpp11's
`result_row_t`), not by this repository. Section 3: an ordered sequence of named,
statically typed fields plus one boolean validity flag. -/
structure result_row_t (T V : Type) where
  fields : List (result_field T V)
  _is_valid : Bool

/-- Modelled from the spec: the type-directed conversion of section 4.2, by column
position. Each field receives the conversion of the column at its own position to its
declared type; `convert` answers `none` where the raw value does not convert (NULL into
a slot that does not support null, text that is not of the declared type). A record
with fewer columns than fields cannot be decoded. -/
def decode_fields {T V : Type} (convert : T → column → Option V) :
    List (result_field T V) → List column → Option (List (result_field T V))
  | [], _ => some []
  | _ :: _, [] => none
  | f :: fs, c :: cs =>
    match convert f.type c, decode_fields convert fs cs with
    | some v, some rest => some ({ f with value := v } :: rest)
    | _, _ => none

/-- Modelled from the spec: assignment of a fetched record to a row (the decode step of
section 4.2). A column-count mismatch between record and row shape and a value that
does not convert are decode errors; otherwise all fields are overwritten and the row is
valid. -/
def result_row_t.assign {T V : Type} (convert : T → column → Option V)
    (row : result_row_t T V) (r : char_result_row_t) : Except exception (result_row_t T V) :=
  match r.data with
  | none => .error ⟨.DecodeError, "no record"⟩
  | some cols =>
    if cols.length ≠ row.fields.length then
      .error ⟨.DecodeError, "column count mismatch"⟩
    else
      match decode_fields convert row.fields cols with
      | none => .error ⟨.DecodeError, "value does not convert"⟩
      | some fs => .ok { fields := fs, _is_valid := true }

/-- Modelled from the spec: `invalidate()` of the row type marks the row invalid and
touches no field (sections 3 and 4.2). -/
def result_row_t.invalidate {T V : Type} (row : result_row_t T V) : result_row_t T V :=
  { row with _is_valid := false }

/-- Modelled from the spec: the row type of section 3 as an instance of the template
parameter `ResultRow`. -/
def result_row_t.ops {T V : Type} (convert : T → column → Option V) :
    ResultRow (result_row_t T V) where
  assign := result_row_t.assign convert
  invalidate := result_row_t.invalidate

/-- Successive calls of `next` on one result object, one call per row of `rows`, each
call continuing from the result object the previous call left. Returns the result
object after the last call and the rows as the calls left them. -/
def char_result_t.next_each {Row : Type} (ops : ResultRow Row)
    (next_impl : char_result_t → Except exception char_result_t) :
    char_result_t → List Row → Except exception (char_result_t × List Row)
  | self, [] => .ok (self, [])
  | self, row :: rows =>
    match char_result_t.next ops next_impl self row with
    | .error e => .error e
    | .ok (self', row') =>
      match char_result_t.next_each ops next_impl self' rows with
      | .error e => .error e
      | .ok (self'', rows') => .ok (self'', row' :: rows')

/-! ## connection.h -/

/-- A member function that acts on state `W` and may throw: the outcome, and the state
it leaves behind (also when it throws). -/
def Eff (W α : Type) : Type := W → Except exception α × W

/-- Sequencing of two steps: the second runs on the value and in the state the first has
left; when the first throws, the second does not run. -/
def Eff.bind {W α β : Type} (m : Eff W α) (f : α → Eff W β) : Eff W β :=
  fun w =>
    match m w with
    | (.error e, w') => (.error e, w')
    | (.ok a, w') => f a w'

/-- A value streamed into the serializer with `operator<<`. -/
inductive streamable where
  | text (s : String)
  | character (c : Char)
  | integer (i : Int)
deriving DecidableEq, Repr

/-- The characters `std::ostream` writes for a streamed value. -/
def streamable.format : streamable → String
  | .text s => s
  | .character c => String.singleton c
  | .integer i => toString i

/-- The members of the class `connection` that connection.h declares and does not define:
the private direct-execution and prepared-execution steps and the public `execute` and
`escape`. Each of them acts on a state `W` (the data members of the connection and the
driver behind its handle) and may throw; `escape` is a non-static member like the others,
so its answer may depend on that state. `Q` is `prepared_query_t` (prepared_query.h), `B`
is `bind_result_t` (bind_result.h). -/
structure connection (W Q B : Type) where
  select_impl : String → Eff W char_result_t
  insert_impl : String → Eff W Nat
  update_impl : String → Eff W Nat
  remove_impl : String → Eff W Nat
  prepare_impl : String → Nat → Nat → Eff W Q
  run_prepared_select_impl : Q → Eff W B
  run_prepared_insert_impl : Q → Eff W Nat
  run_prepared_update_impl : Q → Eff W Nat
  run_prepared_remove_impl : Q → Eff W Nat
  execute : String → Eff W Unit
  escape : String → Eff W String

/-- The struct `serializer_t`: `_db` is the connection it was constructed for, `_os` the
characters written to its `std::stringstream` so far. -/
structure serializer_t (W Q B : Type) where
  _db : connection W Q B
  _os : String

/-- The constructor `serializer_t(const connection& db)`: `_db(db)`, and `_os` is
default-constructed, so it holds no characters. -/
def serializer_t.init {W Q B : Type} (db : connection W Q B) : serializer_t W Q B :=
  { _db := db, _os := "" }

/-- The member template `serializer_t::operator<<`: `_os << t`. -/
def serializer_t.stream {W Q B : Type} (self : serializer_t W Q B) (t : streamable) :
    serializer_t W Q B :=
  { self with _os := self._os ++ t.format }

/-- The member `serializer_t::escape`: `return _db.escape(arg);`. -/
def serializer_t.escape {W Q B : Type} (self : serializer_t W Q B) (arg : String) :
    Eff W String :=
  self._db.escape arg

/-- The member `serializer_t::str`: `return _os.str();`. -/
def serializer_t.str {W Q B : Type} (self : serializer_t W Q B) : String :=
  self._os

/-- Modelled from the spec: the query builder is an external collaborator that writes the
SQL text of a statement into the serializer. What the interpretation of a statement does
with the serializer it is given is a script of the two operations a serializer offers:
stream a value with `operator<<`, or ask `escape` for the escaped form of a string and go
on depending on the answer. -/
inductive serialization where
  | done
  | stream (t : streamable) (rest : serialization)
  | escape (arg : String) (rest : String → serialization)

/-- The operations connection.h uses on its template parameters `Select`, `Insert`,
`Update` and `Remove`: the statement can be interpreted into a serializer and answers
`_get_no_of_parameters()` and (a select) `get_no_of_result_columns()`. -/
structure statement where
  serialization : serialization
  _get_no_of_parameters : Nat
  get_no_of_result_columns : Nat

/-- Runs a serialization script on a serializer: the serializer as the script leaves it,
unless a call of `escape` throws. -/
def serialization.run {W Q B : Type} :
    serialization → serializer_t W Q B → Eff W (serializer_t W Q B)
  | .done, context => fun w => (.ok context, w)
  | .stream t rest, context => rest.run (context.stream t)
  | .escape arg rest, context =>
    (context.escape arg).bind (fun escaped => (rest escaped).run context)

/-- Modelled from the spec: `interpret(s, context)` comes from the query builder (through
interpreter.h), which the specification treats as an external collaborator producing the
SQL text of a statement; it writes the statement into the context through the
context's own operations, and an exception of `escape` propagates out of it. -/
def interpret {W Q B : Type} (s : statement) (context : serializer_t W Q B) :
    Eff W (serializer_t W Q B) :=
  s.serialization.run context

/-- The pieces of text a serialization script streams, in order, when it is run in state
`w` with `escape` as the escaping of the connection (up to the call of `escape` that
throws, if one does). -/
def serialization.pieces {W : Type} (escape : String → Eff W String) :
    serialization → W → List String
  | .done, _ => []
  | .stream t rest, w => t.format :: rest.pieces escape w
  | .escape arg rest, w =>
    match escape arg w with
    | (.ok escaped, w') => (rest escaped).pieces escape w'
    | (.error _, _) => []

/-- Whether a serialization script run in state `w` comes to its end or a call of `escape`
throws, and the state it leaves. -/
def serialization.finish {W : Type} (escape : String → Eff W String) :
    serialization → Eff W Unit
  | .done => fun w => (.ok (), w)
  | .stream _ rest => rest.finish escape
  | .escape arg rest => (escape arg).bind (fun escaped => (rest escaped).finish escape)

/-- The operations connection.h uses on its template parameters `PreparedSelect`,
`PreparedInsert`, `PreparedUpdate` and `PreparedRemove`: `_bind_params()`, which may raise
a parameter-binding error (section 4.3), and the member `_prepared_query`. The prepared
query is passed on by reference; its buffers are part of the state `W`. -/
structure prepared_statement (W Q : Type) where
  _bind_params : Eff W Unit
  _prepared_query : Q

/-- The member template `connection::select`. -/
def connection.select {W Q B : Type} (db : connection W Q B) (s : statement) :
    Eff W char_result_t :=
  let context := serializer_t.init db
  (interpret s context).bind (fun context => db.select_impl context.str)

/-- The member template `connection::prepare_select`. -/
def connection.prepare_select {W Q B : Type} (db : connection W Q B) (s : statement) :
    Eff W Q :=
  let context := serializer_t.init db
  (interpret s context).bind (fun context =>
    db.prepare_impl context.str s._get_no_of_parameters s.get_no_of_result_columns)

/-- The member template `connection::run_prepared_select`. -/
def connection.run_prepared_select {W Q B : Type} (db : connection W Q B)
    (s : prepared_statement W Q) : Eff W B :=
  fun w =>
    match s._bind_params w with
    | (.error e, w') => (.error e, w')
    | (.ok (), w') => db.run_prepared_select_impl s._prepared_query w'

/-- The member template `connection::insert`. -/
def connection.insert {W Q B : Type} (db : connection W Q B) (i : statement) : Eff W Nat :=
  let context := serializer_t.init db
  (interpret i context).bind (fun context => db.insert_impl context.str)

/-- The member template `connection::prepare_insert`. -/
def connection.prepare_insert {W Q B : Type} (db : connection W Q B) (i : statement) :
    Eff W Q :=
  let context := serializer_t.init db
  (interpret i context).bind (fun context =>
    db.prepare_impl context.str i._get_no_of_parameters 0)

/-- The member template `connection::run_prepared_insert`. -/
def connection.run_prepared_insert {W Q B : Type} (db : connection W Q B)
    (i : prepared_statement W Q) : Eff W Nat :=
  fun w =>
    match i._bind_params w with
    | (.error e, w') => (.error e, w')
    | (.ok (), w') => db.run_prepared_insert_impl i._prepared_query w'

/-- The member template `connection::update`. -/
def connection.update {W Q B : Type} (db : connection W Q B) (u : statement) : Eff W Nat :=
  let context := serializer_t.init db
  (interpret u context).bind (fun context => db.update_impl context.str)

/-- The member template `connection::prepare_update`. -/
def connection.prepare_update {W Q B : Type} (db : connection W Q B) (u : statement) :
    Eff W Q :=
  let context := serializer_t.init db
  (interpret u context).bind (fun context =>
    db.prepare_impl context.str u._get_no_of_parameters 0)

/-- The member template `connection::run_prepared_update`. -/
def connection.run_prepared_update {W Q B : Type} (db : connection W Q B)
    (u : prepared_statement W Q) : Eff W Nat :=
  fun w =>
    match u._bind_params w with
    | (.error e, w') => (.error e, w')
    | (.ok (), w') => db.run_prepared_update_impl u._prepared_query w'

/-- The member template `connection::remove`. -/
def connection.remove {W Q B : Type} (db : connection W Q B) (r : statement) : Eff W Nat :=
  let context := serializer_t.init db
  (interpret r context).bind (fun context => db.remove_impl context.str)

/-- The member template `connection::prepare_remove`. -/
def connection.prepare_remove {W Q B : Type} (db : connection W Q B) (r : statement) :
    Eff W Q :=
  let context := serializer_t.init db
  (interpret r context).bind (fun context =>
    db.prepare_impl context.str r._get_no_of_parameters 0)

/-- The member template `connection::run_prepared_remove`. -/
def connection.run_prepared_remove {W Q B : Type} (db : connection W Q B)
    (r : prepared_statement W Q) : Eff W Nat :=
  fun w =>
    match r._bind_params w with
    | (.error e, w') => (.error e, w')
    | (.ok (), w') => db.run_prepared_remove_impl r._prepared_query w'

/-! ## Calls of the out-of-line members, as a log -/

/-- The four kinds of statement a connection executes. -/
inductive statement_kind where
  | select
  | insert
  | update
  | remove
deriving DecidableEq, Repr

/-- A call observed at the boundary of connection.h: a direct-execution step with the query
text it is handed, `prepare_impl` with its three arguments, `_bind_params()` of the
statement that owns the prepared query `q`, or a `run_prepared_*_impl` step on `q`. -/
inductive call (Q : Type) where
  | direct_impl (kind : statement_kind) (query : String)
  | prepare_impl (query : String) (no_of_parameters no_of_columns : Nat)
  | bind_params (q : Q)
  | run_prepared_impl (kind : statement_kind) (q : Q)
deriving DecidableEq, Repr

/-- The same member function, which in addition appends `c` to a log of calls kept next to
the state. -/
def Eff.logged {W Q α : Type} (c : call Q) (m : Eff W α) : Eff (W × List (call Q)) α :=
  fun w => ((m w.1).1, ((m w.1).2, w.2 ++ [c]))

/-- The same member function on a state that carries a log, which it leaves alone. -/
def Eff.unlogged {W Q α : Type} (m : Eff W α) : Eff (W × List (call Q)) α :=
  fun w => ((m w.1).1, ((m w.1).2, w.2))

/-- The same connection, whose execution and preparation steps log their calls. -/
def connection.logged {W Q B : Type} (db : connection W Q B) :
    connection (W × List (call Q)) Q B where
  select_impl := fun query =>
    Eff.logged (.direct_impl .select query) (db.select_impl query)
  insert_impl := fun query =>
    Eff.logged (.direct_impl .insert query) (db.insert_impl query)
  update_impl := fun query =>
    Eff.logged (.direct_impl .update query) (db.update_impl query)
  remove_impl := fun query =>
    Eff.logged (.direct_impl .remove query) (db.remove_impl query)
  prepare_impl := fun query n m =>
    Eff.logged (.prepare_impl query n m) (db.prepare_impl query n m)
  run_prepared_select_impl := fun q =>
    Eff.logged (.run_prepared_impl .select q) (db.run_prepared_select_impl q)
  run_prepared_insert_impl := fun q =>
    Eff.logged (.run_prepared_impl .insert q) (db.run_prepared_insert_impl q)
  run_prepared_update_impl := fun q =>
    Eff.logged (.run_prepared_impl .update q) (db.run_prepared_update_impl q)
  run_prepared_remove_impl := fun q =>
    Eff.logged (.run_prepared_impl .remove q) (db.run_prepared_remove_impl q)
  execute := fun command => Eff.unlogged (db.execute command)
  escape := fun arg => Eff.unlogged (db.escape arg)

/-- The same prepared statement, whose `_bind_params()` logs its call. -/
def prepared_statement.logged {W Q : Type} (s : prepared_statement W Q) :
    prepared_statement (W × List (call Q)) Q where
  _bind_params := Eff.logged (.bind_params s._prepared_query) s._bind_params
  _prepared_query := s._prepared_query

/-- One call of `prepare_select`, `prepare_insert`, `prepare_update` or `prepare_remove`. -/
def connection.prepare_kind {W Q B : Type} (db : connection W Q B)
    (kind : statement_kind) (s : statement) : Eff W Q :=
  match kind with
  | .select => db.prepare_select s
  | .insert => db.prepare_insert s
  | .update => db.prepare_update s
  | .remove => db.prepare_remove s

/-- One call of `run_prepared_select`, `run_prepared_insert`, `run_prepared_update` or
`run_prepared_remove`, keeping only the state the call leaves behind. -/
def connection.run_prepared_state {W Q B : Type} (db : connection W Q B)
    (kind : statement_kind) (s : prepared_statement W Q) (w : W) : W :=
  match kind with
  | .select => (db.run_prepared_select s w).2
  | .insert => (db.run_prepared_insert s w).2
  | .update => (db.run_prepared_update s w).2
  | .remove => (db.run_prepared_remove s w).2

/-- Any sequence of `run_prepared_*` calls on one connection, whether or not one of them
throws, on the logging connection: the state after the last call. -/
def connection.run_prepared_each {W Q B : Type} (db : connection W Q B) :
    List (statement_kind × prepared_statement W Q) →
      W × List (call Q) → W × List (call Q)
  | [], w => w
  | (kind, s) :: rest, w =>
    connection.run_prepared_each db rest (db.logged.run_prepared_state kind s.logged w)

/-! ## Transactions -/

namespace detail

/-- Modelled from the spec: `detail::connection_handle` is only forward-declared in
connection.h. It is the native connection to the server, here the statements sent over
it so far. -/
structure connection_handle where
  sent : List String
deriving DecidableEq, Repr

end detail

/-- Modelled from the spec: the native driver's `query` primitive (section 6): whether the
server executes a statement or fails it, given the statements sent before it. -/
abbrev driver : Type := List String → String → Except exception Unit

/-- The data members of the class `connection`: `_handle`, and `_transaction_active`,
which the header initialises to `false`. Two more fields are modelled from the spec
(section 4.5): `reported` is what the connection has recorded through
`report_rollback_failure`, and `rollbacks_reported` counts the rollbacks that were asked
to be reported. -/
structure connection_data where
  _handle : detail.connection_handle
  _transaction_active : Bool := false
  reported : List String := []
  rollbacks_reported : Nat := 0
deriving DecidableEq, Repr

/-- Modelled from the spec: sending one statement to the server over the handle of the
connection; a statement the server rejects or fails is a query-execution error that
propagates to the caller. -/
def execute_statement (server : driver) (statement : String) : Eff connection_data Unit :=
  fun c =>
    (server c._handle.sent statement,
      { c with _handle := { sent := c._handle.sent ++ [statement] } })

/-- Modelled from the spec: `connection::start_transaction` is declared in connection.h and
defined elsewhere. Section 4.5 (`start`): fails if a transaction is already active (no
nesting); otherwise issues the begin statement and sets `_transaction_active`. -/
def connection_data.start_transaction (server : driver) : Eff connection_data Unit :=
  fun c =>
    if c._transaction_active then
      (.error ⟨.TransactionStateError, "transaction already active"⟩, c)
    else
      match execute_statement server "START TRANSACTION" c with
      | (.error e, c') => (.error e, c')
      | (.ok (), c') => (.ok (), { c' with _transaction_active := true })

/-- Modelled from the spec: `connection::rollback_transaction` is declared in connection.h
("with or without reporting the rollback (or throw if the transaction has been finished
already)") and defined elsewhere. Section 4.5 (`rollback`): fails if no transaction is
active; otherwise issues the rollback statement, reporting the rollback when asked to,
and on success clears `_transaction_active`; a failing rollback statement raises. -/
def connection_data.rollback_transaction (server : driver) (report : Bool) :
    Eff connection_data Unit :=
  fun c =>
    if !c._transaction_active then
      (.error ⟨.TransactionStateError, "transaction already finished"⟩, c)
    else
      let c := if report then { c with rollbacks_reported := c.rollbacks_reported + 1 } else c
      match execute_statement server "ROLLBACK" c with
      | (.error e, c') => (.error e, c')
      | (.ok (), c') => (.ok (), { c' with _transaction_active := false })

/-- Modelled from the spec: `connection::report_rollback_failure` is declared `noexcept` in
connection.h ("will be called by transactions in case of a rollback failure in the
destructor") and defined elsewhere. Section 4.5: the connection records the message. -/
def connection_data.report_rollback_failure (message : String) : Eff connection_data Unit :=
  fun c => (.ok (), { c with reported := c.reported ++ [message] })

/-- Modelled from the spec: the states of a transaction guard (section 3,
TransactionState); the guard belongs to the query-builder library. -/
inductive TransactionState where
  | Inactive
  | Active
  | Committed
  | RolledBack
deriving DecidableEq, Repr

/-- Modelled from the spec: the transaction guard of section 4.5, which belongs to the
query-builder library and not to this repository: its state, and whether its implicit
rollback is to be reported. -/
structure TransactionGuard where
  state : TransactionState
  report : Bool
deriving DecidableEq, Repr

/-- Modelled from the spec: the automatic cleanup of a transaction guard (section 4.5). A
guard that is still active rolls back implicitly; a failure of that rollback does not
propagate but is handed to `report_rollback_failure` of the connection, as a message
that says what failed followed by the text of the error. -/
def TransactionGuard.cleanup (server : driver) (guard : TransactionGuard) :
    Eff connection_data Unit :=
  fun c =>
    match guard.state with
    | .Active =>
      match connection_data.rollback_transaction server guard.report c with
      | (.ok (), c') => (.ok (), c')
      | (.error e, c') =>
        connection_data.report_rollback_failure ("auto rollback failed: " ++ e.what) c'
    | _ => (.ok (), c)

/-! ## Examples -/

/-- Escaping by doubling each single quote. -/
def double_quotes (s : String) : String :=
  String.join (s.toList.map (fun c => if c = Char.ofNat 39 then "''" else String.singleton c))

/-- A connection for the examples. Its state is the list of query texts the server has
executed or prepared; a prepared query is the position of its text in that list; every
step succeeds; `escape` doubles each single quote. -/
def example_connection : connection (List String) Nat Unit where
  select_impl := fun query w => (.ok ⟨none, ⟨none⟩⟩, w ++ [query])
  insert_impl := fun query w => (.ok 0, w ++ [query])
  update_impl := fun query w => (.ok 0, w ++ [query])
  remove_impl := fun query w => (.ok 0, w ++ [query])
  prepare_impl := fun query _ _ w => (.ok w.length, w ++ [query])
  run_prepared_select_impl := fun _ w => (.ok (), w)
  run_prepared_insert_impl := fun _ w => (.ok 0, w)
  run_prepared_update_impl := fun _ w => (.ok 0, w)
  run_prepared_remove_impl := fun _ w => (.ok 0, w)
  execute := fun command w => (.ok (), w ++ [command])
  escape := fun s w => (.ok (double_quotes s), w)

/-- An insert of the values the tests insert (`tab.beta = "cheesecake"`,
`tab.gamma = false`), as a builder serializes it: the text value is escaped and put
between quotes. -/
def example_insert : statement where
  serialization :=
    .stream (.text "INSERT INTO tab_sample (beta,gamma) VALUES(")
      (.stream (.text "'")
        (.escape "cheesecake" (fun escaped =>
          .stream (.text escaped)
            (.stream (.text "'")
              (.stream (.character ',')
                (.stream (.integer 0)
                  (.stream (.character ')') .done)))))))
  _get_no_of_parameters := 0
  get_no_of_result_columns := 0

/-- A select over two columns with one parameter, `WHERE beta = ?`. -/
def example_select : statement where
  serialization :=
    .stream (.text "SELECT alpha,beta FROM tab_sample WHERE beta=")
      (.stream (.character '?') .done)
  _get_no_of_parameters := 1
  get_no_of_result_columns := 2

/-- A prepared statement of the example connection that owns prepared query 0 and whose
binding succeeds. -/
def example_prepared : prepared_statement (List String) Nat where
  _bind_params := fun w => (.ok (), w)
  _prepared_query := 0

/-! ## Properties of `char_result_t` -/

theorem next_impl_end_of_data_fixed (self self' : char_result_t)
    (hfetch : char_result_t.next_impl self = .ok self')
    (hend : self'._char_result_row.data = none) :
    char_result_t.next_impl self' = .ok self' := by
  obtain ⟨handle, row⟩ := self
  cases handle with
  | none =>
    simp only [char_result_t.next_impl] at hfetch
    cases hfetch
    rfl
  | some h =>
    obtain ⟨addr, pending⟩ := h
    cases pending with
    | nil =>
      simp only [char_result_t.next_impl] at hfetch
      cases hfetch
      rfl
    | cons first rest =>
      cases first with
      | error e => simp [char_result_t.next_impl] at hfetch
      | ok record =>
        simp only [char_result_t.next_impl] at hfetch
        cases hfetch
        simp at hend

theorem next_of_end_of_data {Row : Type} (ops : ResultRow Row)
    (next_impl : char_result_t → Except exception char_result_t)
    (self self' : char_result_t) (result_row : Row)
    (hfetch : next_impl self = .ok self')
    (hend : self'._char_result_row.data = none) :
    char_result_t.next ops next_impl self result_row
      = .ok (self', ops.invalidate result_row) := by
  simp [char_result_t.next, hfetch, hend]

theorem next_of_data {Row : Type} (ops : ResultRow Row)
    (next_impl : char_result_t → Except exception char_result_t)
    (self self' : char_result_t) (result_row : Row) (record : List column)
    (hfetch : next_impl self = .ok self')
    (hdata : self'._char_result_row.data = some record) :
    char_result_t.next ops next_impl self result_row
      = (ops.assign result_row self'._char_result_row).map (fun row' => (self', row')) := by
  simp only [char_result_t.next, hfetch, hdata, Option.isSome_some, if_true]
  cases ops.assign result_row self'._char_result_row <;> rfl

theorem decode_fields_positional {T V : Type} (convert : T → column → Option V) :
    ∀ (fs : List (result_field T V)) (cols : List column) (fs' : List (result_field T V)),
      decode_fields convert fs cols = some fs' →
      fs'.length = fs.length ∧
      ∀ (N : Nat) (f : result_field T V), fs[N]? = some f →
        ∃ c v, cols[N]? = some c ∧ convert f.type c = some v ∧
          fs'[N]? = some { f with value := v }
  | [], cols, fs', h => by
    simp only [decode_fields, Option.some.injEq] at h
    subst h
    simp
  | f :: fs, [], fs', h => by simp [decode_fields] at h
  | f :: fs, c :: cs, fs', h => by
    simp only [decode_fields] at h
    cases hv : convert f.type c with
    | none => simp [hv] at h
    | some v =>
      cases hrest : decode_fields convert fs cs with
      | none => simp [hv, hrest] at h
      | some rest =>
        simp only [hv, hrest, Option.some.injEq] at h
        subst h
        obtain ⟨hlen, hpos⟩ := decode_fields_positional convert fs cs rest hrest
        refine ⟨by simp [hlen], ?_⟩
        intro N g hg
        cases N with
        | zero =>
          simp only [List.getElem?_cons_zero, Option.some.injEq] at hg
          subst hg
          exact ⟨c, v, by simp, hv, by simp⟩
        | succ n =>
          simp only [List.getElem?_cons_succ] at hg
          obtain ⟨c', v', hc, hconv, hget⟩ := hpos n g hg
          exact ⟨c', v', by simpa using hc, hconv, by simpa using hget⟩

theorem decode_fields_complete {T V : Type} (convert : T → column → Option V) :
    ∀ (fs : List (result_field T V)) (cols : List column),
      fs.length ≤ cols.length →
      (∀ (N : Nat) (f : result_field T V) (c : column),
        fs[N]? = some f → cols[N]? = some c → (convert f.type c).isSome = true) →
      ∃ fs', decode_fields convert fs cols = some fs'
  | [], cols, _, _ => ⟨[], by simp [decode_fields]⟩
  | f :: fs, [], hlen, _ => by simp at hlen
  | f :: fs, c :: cs, hlen, hconv => by
    have h0 := hconv 0 f c (by simp) (by simp)
    obtain ⟨v, hv⟩ := Option.isSome_iff_exists.mp h0
    obtain ⟨rest, hrest⟩ := decode_fields_complete convert fs cs
      (by simpa using hlen)
      (fun N g d hg hd => hconv (N + 1) g d (by simpa using hg) (by simpa using hd))
    exact ⟨{ f with value := v } :: rest, by simp [decode_fields, hv, hrest]⟩

theorem next_each_of_end_of_data {Row : Type} (ops : ResultRow Row)
    (self : char_result_t)
    (hfixed : char_result_t.next_impl self = .ok self)
    (hend : self._char_result_row.data = none) :
    ∀ rows : List Row,
      char_result_t.next_each ops char_result_t.next_impl self rows
        = .ok (self, rows.map ops.invalidate)
  | [] => rfl
  | row :: rows => by
    simp only [char_result_t.next_each,
      next_of_end_of_data ops char_result_t.next_impl self self row hfixed hend,
      next_each_of_end_of_data ops self hfixed hend rows, List.map_cons]

/-- C1: when the fetch of `next(row)` reaches end-of-data (after `next_impl` the fetched
record has no data), `next` does exactly one thing to the row, `invalidate()`, whatever
the row type, and assigns no record to it; for the row type of the specification the
row comes out invalid with every field as it was. -/
theorem next_end_of_data_invalidates {Row : Type} (ops : ResultRow Row)
    (next_impl : char_result_t → Except exception char_result_t)
    (self self' : char_result_t) (result_row : Row)
    (hfetch : next_impl self = .ok self')
    (hend : self'._char_result_row.data = none) :
    char_result_t.next ops next_impl self result_row
        = .ok (self', ops.invalidate result_row) ∧
    ∀ (T V : Type) (convert : T → column → Option V) (row : result_row_t T V),
      char_result_t.next (result_row_t.ops convert) next_impl self row
        = .ok (self', { fields := row.fields, _is_valid := false }) :=
  ⟨next_of_end_of_data ops next_impl self self' result_row hfetch hend,
    fun _ _ convert row =>
      next_of_end_of_data (result_row_t.ops convert) next_impl self self' row hfetch hend⟩

/-- An instance of C1: an exhausted result and a row that holds the last record. -/
theorem next_end_of_data_invalidates_witness :
    char_result_t.next_impl ⟨some ⟨7, []⟩, ⟨some [some "kaesekuchen"]⟩⟩
        = .ok ⟨some ⟨7, []⟩, ⟨none⟩⟩ ∧
    (⟨some ⟨7, []⟩, ⟨none⟩⟩ : char_result_t)._char_result_row.data = none ∧
    char_result_t.next (result_row_t.ops (fun (_ : Unit) c => some c))
        char_result_t.next_impl ⟨some ⟨7, []⟩, ⟨some [some "kaesekuchen"]⟩⟩
        ⟨[⟨"beta", (), some "kaesekuchen"⟩], true⟩
      = .ok (⟨some ⟨7, []⟩, ⟨none⟩⟩, ⟨[⟨"beta", (), some "kaesekuchen"⟩], false⟩) :=
  ⟨rfl, rfl,
    (next_end_of_data_invalidates (result_row_t.ops (fun (_ : Unit) c => some c))
      char_result_t.next_impl ⟨some ⟨7, []⟩, ⟨some [some "kaesekuchen"]⟩⟩
      ⟨some ⟨7, []⟩, ⟨none⟩⟩ ⟨[⟨"beta", (), some "kaesekuchen"⟩], true⟩ rfl rfl).1⟩

/-- C2: when the fetch of `next(row)` delivers a record (after `next_impl` the fetched
record has data), `next` does exactly one thing to the row: it assigns the whole record
just fetched to it, and it does not invalidate it, whatever the row type. For the row
type of the specification the assignment is by column position: it completes whenever the
record has as many columns as the row has fields and every column converts to the type of
its field, and whenever it completes the row is valid, keeps its arity, and for every N
below the arity field N holds the conversion of column N of that record. -/
theorem next_fetched_assigns_by_position {Row : Type} (ops : ResultRow Row)
    (next_impl : char_result_t → Except exception char_result_t)
    (self self' : char_result_t) (result_row : Row) (record : List column)
    (hfetch : next_impl self = .ok self')
    (hdata : self'._char_result_row.data = some record) :
    char_result_t.next ops next_impl self result_row
        = (ops.assign result_row self'._char_result_row).map (fun row' => (self', row')) ∧
    ∀ (T V : Type) (convert : T → column → Option V) (row : result_row_t T V),
      (record.length = row.fields.length →
        (∀ (N : Nat) (f : result_field T V) (c : column),
          row.fields[N]? = some f → record[N]? = some c →
          (convert f.type c).isSome = true) →
        ∃ row', char_result_t.next (result_row_t.ops convert) next_impl self row
          = .ok (self', row')) ∧
      ∀ (out : char_result_t) (row' : result_row_t T V),
        char_result_t.next (result_row_t.ops convert) next_impl self row = .ok (out, row') →
        out = self' ∧ row'._is_valid = true ∧ row'.fields.length = row.fields.length ∧
        ∀ (N : Nat) (f : result_field T V), row.fields[N]? = some f →
          ∃ c v, record[N]? = some c ∧ convert f.type c = some v ∧
            row'.fields[N]? = some { f with value := v } := by
  refine ⟨next_of_data ops next_impl self self' result_row record hfetch hdata, ?_⟩
  intro T V convert row
  have hnext := next_of_data (result_row_t.ops convert) next_impl self self' row record
    hfetch hdata
  constructor
  · intro hlen hconv
    obtain ⟨fs', hfs'⟩ := decode_fields_complete convert row.fields record
      (Nat.le_of_eq hlen.symm) hconv
    refine ⟨{ fields := fs', _is_valid := true }, ?_⟩
    rw [hnext]
    simp [result_row_t.ops, result_row_t.assign, hdata, hlen, hfs', Except.map]
  · intro out row' hout
    rw [hnext] at hout
    simp only [result_row_t.ops, result_row_t.assign, hdata] at hout
    by_cases hlen : record.length = row.fields.length
    · cases hfs : decode_fields convert row.fields record with
      | none => simp [hlen, hfs, Except.map] at hout
      | some fs' =>
        simp only [hlen, hfs, Except.map, ne_eq, not_true_eq_false, if_false,
          Except.ok.injEq, Prod.mk.injEq] at hout
        obtain ⟨hself, hrow⟩ := hout
        subst hrow
        obtain ⟨hl, hpos⟩ := decode_fields_positional convert row.fields record fs' hfs
        exact ⟨hself.symm, rfl, hl, hpos⟩
    · simp [hlen, Except.map] at hout

/-- An instance of C2: a record of two columns, the first NULL, fetched into a row of two
fields. -/
theorem next_fetched_assigns_by_position_witness :
    char_result_t.next_impl ⟨some ⟨7, [.ok [none, some "cheesecake"]]⟩, ⟨none⟩⟩
        = .ok ⟨some ⟨7, []⟩, ⟨some [none, some "cheesecake"]⟩⟩ ∧
    (⟨some ⟨7, []⟩, ⟨some [none, some "cheesecake"]⟩⟩ : char_result_t)._char_result_row.data
        = some [none, some "cheesecake"] ∧
    char_result_t.next (result_row_t.ops (fun (_ : Unit) c => some c))
        char_result_t.next_impl ⟨some ⟨7, [.ok [none, some "cheesecake"]]⟩, ⟨none⟩⟩
        ⟨[⟨"alpha", (), some "1"⟩, ⟨"beta", (), none⟩], false⟩
      = .ok (⟨some ⟨7, []⟩, ⟨some [none, some "cheesecake"]⟩⟩,
          ⟨[⟨"alpha", (), none⟩, ⟨"beta", (), some "cheesecake"⟩], true⟩) :=
  ⟨rfl, rfl,
    (next_fetched_assigns_by_position (result_row_t.ops (fun (_ : Unit) c => some c))
      char_result_t.next_impl ⟨some ⟨7, [.ok [none, some "cheesecake"]]⟩, ⟨none⟩⟩
      ⟨some ⟨7, []⟩, ⟨some [none, some "cheesecake"]⟩⟩
      ⟨[⟨"alpha", (), some "1"⟩, ⟨"beta", (), none⟩], false⟩ [none, some "cheesecake"]
      rfl rfl).1.trans rfl⟩

/-- C3: end-of-data is idempotent. Once a call of `next` has found the result exhausted
(it returned with the fetched record holding no data, so it invalidated its row), a
further call of `next` on that result again only invalidates its row and leaves the
result as it is, and so does every later call, on whatever rows and however many; for
the row type of the specification each such row comes out invalid with every field as
it was. -/
theorem next_end_of_data_idempotent {Row : Type} (ops : ResultRow Row)
    (self self1 : char_result_t) (row row1 : Row)
    (hcall : char_result_t.next ops char_result_t.next_impl self row = .ok (self1, row1))
    (hend : self1._char_result_row.data = none) :
    row1 = ops.invalidate row ∧
    (∀ again : Row,
      char_result_t.next ops char_result_t.next_impl self1 again
        = .ok (self1, ops.invalidate again)) ∧
    (∀ later : List Row,
      char_result_t.next_each ops char_result_t.next_impl self1 later
        = .ok (self1, later.map ops.invalidate)) ∧
    ∀ (T V : Type) (convert : T → column → Option V) (later : List (result_row_t T V)),
      char_result_t.next_each (result_row_t.ops convert) char_result_t.next_impl self1 later
        = .ok (self1, later.map (fun r => { fields := r.fields, _is_valid := false })) := by
  have hfetch : char_result_t.next_impl self = .ok self1 ∧ row1 = ops.invalidate row := by
    simp only [char_result_t.next] at hcall
    cases himpl : char_result_t.next_impl self with
    | error e => simp [himpl] at hcall
    | ok s =>
      simp only [himpl] at hcall
      by_cases hsome : s._char_result_row.data.isSome = true
      · simp only [hsome, if_true] at hcall
        cases hassign : ops.assign row s._char_result_row with
        | error e => simp [hassign] at hcall
        | ok r =>
          simp only [hassign, Except.ok.injEq, Prod.mk.injEq] at hcall
          rw [hcall.1, hend] at hsome
          simp at hsome
      · simp only [hsome, Bool.false_eq_true, if_false, Except.ok.injEq,
          Prod.mk.injEq] at hcall
        exact ⟨by rw [hcall.1], hcall.2.symm⟩
  have hfixed := next_impl_end_of_data_fixed self self1 hfetch.1 hend
  exact ⟨hfetch.2,
    fun again => next_of_end_of_data ops char_result_t.next_impl self1 self1 again hfixed hend,
    next_each_of_end_of_data ops self1 hfixed hend,
    fun _ _ convert later =>
      next_each_of_end_of_data (result_row_t.ops convert) self1 hfixed hend later⟩

/-- An instance of C3: two more calls on an exhausted result. -/
theorem next_end_of_data_idempotent_witness :
    char_result_t.next (result_row_t.ops (fun (_ : Unit) c => some c))
        char_result_t.next_impl ⟨some ⟨7, []⟩, ⟨some [some "kaesekuchen"]⟩⟩
        ⟨[⟨"beta", (), some "kaesekuchen"⟩], true⟩
      = .ok (⟨some ⟨7, []⟩, ⟨none⟩⟩, ⟨[⟨"beta", (), some "kaesekuchen"⟩], false⟩) ∧
    (⟨some ⟨7, []⟩, ⟨none⟩⟩ : char_result_t)._char_result_row.data = none ∧
    char_result_t.next_each (result_row_t.ops (fun (_ : Unit) c => some c))
        char_result_t.next_impl ⟨some ⟨7, []⟩, ⟨none⟩⟩
        [⟨[⟨"beta", (), some "kaesekuchen"⟩], false⟩, ⟨[⟨"beta", (), some "torte"⟩], true⟩]
      = .ok (⟨some ⟨7, []⟩, ⟨none⟩⟩,
          [⟨[⟨"beta", (), some "kaesekuchen"⟩], false⟩,
            ⟨[⟨"beta", (), some "torte"⟩], false⟩]) :=
  ⟨rfl, rfl,
    (next_end_of_data_idempotent (result_row_t.ops (fun (_ : Unit) c => some c))
      ⟨some ⟨7, []⟩, ⟨some [some "kaesekuchen"]⟩⟩ ⟨some ⟨7, []⟩, ⟨none⟩⟩
      ⟨[⟨"beta", (), some "kaesekuchen"⟩], true⟩
      ⟨[⟨"beta", (), some "kaesekuchen"⟩], false⟩ rfl rfl).2.2.1
      [⟨[⟨"beta", (), some "kaesekuchen"⟩], false⟩, ⟨[⟨"beta", (), some "torte"⟩], true⟩]⟩

/-- C4: `a == b` holds exactly when the two result handles are the same underlying
resource (the same pointer, whatever record each result has fetched last); two results
whose handles are both empty are equal, and a result that holds a handle is never equal
to one whose handle is empty, in either order. -/
theorem operator_eq_iff_same_resource :
    (∀ a b : char_result_t, a.operator_eq b = true ↔ a.get = b.get) ∧
    (∀ ra rb : char_result_row_t,
      char_result_t.operator_eq ⟨none, ra⟩ ⟨none, rb⟩ = true) ∧
    (∀ (h : detail.result_handle) (ra rb : char_result_row_t),
      char_result_t.operator_eq ⟨some h, ra⟩ ⟨none, rb⟩ = false ∧
      char_result_t.operator_eq ⟨none, rb⟩ ⟨some h, ra⟩ = false) ∧
    (∀ (h k : detail.result_handle) (ra rb : char_result_row_t),
      char_result_t.operator_eq ⟨some h, ra⟩ ⟨some k, rb⟩ = true ↔ h.addr = k.addr) := by
  refine ⟨fun a b => by simp [char_result_t.operator_eq], fun ra rb => rfl,
    fun h ra rb => ⟨?_, ?_⟩, fun h k ra rb => ?_⟩ <;>
  simp [char_result_t.operator_eq, char_result_t.get]

/-! ## Properties of `serializer_t` and of the entry points of `connection` -/

theorem join_cons (a : String) (l : List String) :
    String.join (a :: l) = a ++ String.join l := by
  have h : ∀ (l : List String) (acc : String),
      List.foldl (fun r s => r ++ s) acc l
        = acc ++ List.foldl (fun r s => r ++ s) "" l := by
    intro l
    induction l with
    | nil => intro acc; simp
    | cons b l ih =>
      intro acc
      simp only [List.foldl_cons]
      rw [ih (acc ++ b), ih ("" ++ b)]
      simp [String.append_assoc]
  simp only [String.join, List.foldl_cons]
  rw [h l ("" ++ a)]
  simp

theorem run_streams_pieces {W Q B : Type} :
    ∀ (p : serialization) (context : serializer_t W Q B) (w : W),
      p.run context w
        = ((p.finish context._db.escape w).1.map (fun _ =>
              ({ _db := context._db,
                 _os := context._os ++ String.join (p.pieces context._db.escape w) }
                : serializer_t W Q B)),
            (p.finish context._db.escape w).2)
  | .done, context, w => by
    obtain ⟨db, os⟩ := context
    simp [serialization.run, serialization.finish, serialization.pieces, String.join,
      Except.map]
  | .stream t rest, context, w => by
    have ih := run_streams_pieces rest (context.stream t) w
    simp only [serialization.run, serialization.finish, serialization.pieces, join_cons]
    rw [ih]
    simp [serializer_t.stream, String.append_assoc]
  | .escape arg rest, context, w => by
    simp only [serialization.run, serialization.finish, serialization.pieces,
      serializer_t.escape, Eff.bind]
    cases h : context._db.escape arg w with
    | mk r w' =>
      cases r with
      | error e => simp [Except.map]
      | ok a => simpa using run_streams_pieces (rest a) context w'

theorem interpret_fresh {W Q B : Type} (db : connection W Q B) (s : statement) (w : W) :
    interpret s (serializer_t.init db) w
      = ((s.serialization.finish db.escape w).1.map (fun _ =>
            ({ _db := db, _os := String.join (s.serialization.pieces db.escape w) }
              : serializer_t W Q B)),
          (s.serialization.finish db.escape w).2) := by
  have h := run_streams_pieces s.serialization (serializer_t.init db) w
  simpa [interpret, serializer_t.init] using h

theorem bind_interpret_fresh {W Q B α : Type} (db : connection W Q B) (s : statement)
    (f : serializer_t W Q B → Eff W α) (w : W) :
    (interpret s (serializer_t.init db)).bind f w
      = (match s.serialization.finish db.escape w with
          | (.ok _, w') =>
            f { _db := db, _os := String.join (s.serialization.pieces db.escape w) } w'
          | (.error e, w') => (.error e, w')) := by
  simp only [Eff.bind, interpret_fresh]
  cases h : s.serialization.finish db.escape w with
  | mk r w' =>
    cases r with
    | error e => simp [Except.map]
    | ok u => simp [Except.map]

theorem pieces_logged {W Q B : Type} (db : connection W Q B) :
    ∀ (p : serialization) (w : W) (log : List (call Q)),
      p.pieces db.logged.escape (w, log) = p.pieces db.escape w ∧
      p.finish db.logged.escape (w, log)
        = ((p.finish db.escape w).1, ((p.finish db.escape w).2, log))
  | .done, w, log => by simp [serialization.pieces, serialization.finish]
  | .stream t rest, w, log => by
    obtain ⟨hp, hf⟩ := pieces_logged db rest w log
    simp [serialization.pieces, serialization.finish, hp, hf]
  | .escape arg rest, w, log => by
    simp only [serialization.pieces, serialization.finish, Eff.bind, connection.logged,
      Eff.unlogged]
    cases h : db.escape arg w with
    | mk r w' =>
      cases r with
      | error e => simp
      | ok a =>
        obtain ⟨hp, hf⟩ := pieces_logged db (rest a) w' log
        simp only [connection.logged, Eff.unlogged] at hp hf
        simp [hp, hf]

theorem prepare_kind_logged {W Q B : Type} (db : connection W Q B)
    (kind : statement_kind) (s : statement) (w : W) (log : List (call Q)) :
    (db.logged.prepare_kind kind s (w, log)).2.2
      = log ++
        (match (s.serialization.finish db.escape w).1 with
          | .ok _ =>
            [call.prepare_impl (String.join (s.serialization.pieces db.escape w))
              s._get_no_of_parameters
              (if kind = .select then s.get_no_of_result_columns else 0)]
          | .error _ => []) := by
  obtain ⟨hp, hf⟩ := pieces_logged db s.serialization w log
  cases hfin : s.serialization.finish db.escape w with
  | mk r w' =>
    rw [hfin] at hf
    cases r with
    | error e =>
      cases kind <;>
      simp only [connection.prepare_kind, connection.prepare_select,
        connection.prepare_insert, connection.prepare_update, connection.prepare_remove,
        bind_interpret_fresh, hf] <;>
      simp
    | ok u =>
      cases kind <;>
      simp only [connection.prepare_kind, connection.prepare_select,
        connection.prepare_insert, connection.prepare_update, connection.prepare_remove,
        bind_interpret_fresh, hf, hp, serializer_t.str] <;>
      simp [connection.logged, Eff.logged]

theorem run_prepared_state_logged {W Q B : Type} (db : connection W Q B)
    (kind : statement_kind) (s : prepared_statement W Q) (w : W × List (call Q)) :
    (db.logged.run_prepared_state kind s.logged w).2
      = w.2 ++
        (match (s._bind_params w.1).1 with
          | .ok _ => [call.bind_params s._prepared_query,
              call.run_prepared_impl kind s._prepared_query]
          | .error _ => [call.bind_params s._prepared_query]) := by
  obtain ⟨w0, log⟩ := w
  cases hb : s._bind_params w0 with
  | mk outcome w' =>
    cases outcome with
    | error e =>
      cases kind <;>
      simp [connection.run_prepared_state, connection.run_prepared_select,
        connection.run_prepared_insert, connection.run_prepared_update,
        connection.run_prepared_remove, prepared_statement.logged, Eff.logged, hb]
    | ok u =>
      cases kind <;>
      simp [connection.run_prepared_state, connection.run_prepared_select,
        connection.run_prepared_insert, connection.run_prepared_update,
        connection.run_prepared_remove, prepared_statement.logged, connection.logged,
        Eff.logged, hb]

theorem bind_precedes_run_append {Q : Type} (log block : List (call Q)) (q : Q)
    (hblock : block = [call.bind_params q] ∨
      ∃ kind, block = [call.bind_params q, call.run_prepared_impl kind q])
    (hlog : ∀ (i : Nat) (kind : statement_kind) (r : Q),
      log[i]? = some (call.run_prepared_impl kind r) →
      ∃ j, i = j + 1 ∧ log[j]? = some (call.bind_params r)) :
    ∀ (i : Nat) (kind : statement_kind) (r : Q),
      (log ++ block)[i]? = some (call.run_prepared_impl kind r) →
      ∃ j, i = j + 1 ∧ (log ++ block)[j]? = some (call.bind_params r) := by
  intro i kind r hi
  by_cases hlt : i < log.length
  · rw [List.getElem?_append_left hlt] at hi
    obtain ⟨j, hj, hget⟩ := hlog i kind r hi
    refine ⟨j, hj, ?_⟩
    rw [List.getElem?_append_left (by omega)]
    exact hget
  · rw [List.getElem?_append_right (by omega)] at hi
    rcases hblock with hb | ⟨k, hb⟩
    · subst hb
      cases hd : i - log.length with
      | zero => simp [hd] at hi
      | succ n => simp [hd] at hi
    · subst hb
      cases hd : i - log.length with
      | zero => simp [hd] at hi
      | succ n =>
        cases n with
        | zero =>
          simp only [hd, List.getElem?_cons_succ, List.getElem?_cons_zero,
            Option.some.injEq, call.run_prepared_impl.injEq] at hi
          refine ⟨log.length, by omega, ?_⟩
          rw [List.getElem?_append_right (Nat.le_refl _)]
          simp [hi.2]
        | succ m => simp [hd] at hi

theorem run_prepared_each_bind_precedes_run {W Q B : Type} (db : connection W Q B) :
    ∀ (calls : List (statement_kind × prepared_statement W Q)) (w : W × List (call Q)),
      (∀ (i : Nat) (kind : statement_kind) (r : Q),
        w.2[i]? = some (call.run_prepared_impl kind r) →
        ∃ j, i = j + 1 ∧ w.2[j]? = some (call.bind_params r)) →
      ∀ (i : Nat) (kind : statement_kind) (r : Q),
        (db.run_prepared_each calls w).2[i]? = some (call.run_prepared_impl kind r) →
        ∃ j, i = j + 1 ∧ (db.run_prepared_each calls w).2[j]? = some (call.bind_params r)
  | [], w, hw => by simpa [connection.run_prepared_each] using hw
  | (kind, s) :: rest, w, hw => by
    simp only [connection.run_prepared_each]
    apply run_prepared_each_bind_precedes_run db rest
    rw [run_prepared_state_logged]
    apply bind_precedes_run_append w.2 _ s._prepared_query _ hw
    cases (s._bind_params w.1).1 with
    | error e => exact Or.inl rfl
    | ok u => exact Or.inr ⟨kind, rfl⟩

/-- C7: each of `run_prepared_select`, `run_prepared_insert`, `run_prepared_update` and
`run_prepared_remove` first calls `_bind_params()` of the statement, once; when that
returns it runs the execution step on the statement's own `_prepared_query`, in the state
the binding left, and returns the outcome of that step unchanged (when the binding throws,
nothing is executed). In the log of calls, one call adds the binding followed by the
execution; and over any sequence of such calls every execution in the log comes directly
after a binding of the same prepared query. -/
theorem run_prepared_binds_then_executes {W Q B : Type} (db : connection W Q B) :
    (∀ (s : prepared_statement W Q) (w w' : W), s._bind_params w = (.ok (), w') →
      db.run_prepared_select s w = db.run_prepared_select_impl s._prepared_query w' ∧
      db.run_prepared_insert s w = db.run_prepared_insert_impl s._prepared_query w' ∧
      db.run_prepared_update s w = db.run_prepared_update_impl s._prepared_query w' ∧
      db.run_prepared_remove s w = db.run_prepared_remove_impl s._prepared_query w') ∧
    (∀ (s : prepared_statement W Q) (w w' : W) (e : exception),
      s._bind_params w = (.error e, w') →
      db.run_prepared_select s w = (.error e, w') ∧
      db.run_prepared_insert s w = (.error e, w') ∧
      db.run_prepared_update s w = (.error e, w') ∧
      db.run_prepared_remove s w = (.error e, w')) ∧
    (∀ (kind : statement_kind) (s : prepared_statement W Q) (w w' : W)
        (log : List (call Q)), s._bind_params w = (.ok (), w') →
      (db.logged.run_prepared_state kind s.logged (w, log)).2
        = log ++ [call.bind_params s._prepared_query,
            call.run_prepared_impl kind s._prepared_query]) ∧
    (∀ (kind : statement_kind) (s : prepared_statement W Q) (w w' : W) (e : exception)
        (log : List (call Q)), s._bind_params w = (.error e, w') →
      (db.logged.run_prepared_state kind s.logged (w, log)).2
        = log ++ [call.bind_params s._prepared_query]) ∧
    (∀ (calls : List (statement_kind × prepared_statement W Q)) (w : W)
        (i : Nat) (kind : statement_kind) (q : Q),
      (db.run_prepared_each calls (w, [])).2[i]? = some (call.run_prepared_impl kind q) →
      ∃ j, i = j + 1 ∧
        (db.run_prepared_each calls (w, [])).2[j]? = some (call.bind_params q)) := by
  refine ⟨?_, ?_, ?_, ?_, ?_⟩
  · intro s w w' hb
    simp [connection.run_prepared_select, connection.run_prepared_insert,
      connection.run_prepared_update, connection.run_prepared_remove, hb]
  · intro s w w' e hb
    simp [connection.run_prepared_select, connection.run_prepared_insert,
      connection.run_prepared_update, connection.run_prepared_remove, hb]
  · intro kind s w w' log hb
    rw [run_prepared_state_logged]
    simp [hb]
  · intro kind s w w' e log hb
    rw [run_prepared_state_logged]
    simp [hb]
  · intro calls w
    exact run_prepared_each_bind_precedes_run db calls (w, []) (by simp)

/-- An instance of C7: an update and a select run on the example connection. -/
theorem run_prepared_binds_then_executes_witness :
    example_prepared._bind_params [] = (.ok (), []) ∧
    example_connection.run_prepared_update example_prepared []
      = example_connection.run_prepared_update_impl 0 [] ∧
    (example_connection.run_prepared_each
        [(.update, example_prepared), (.select, example_prepared)] ([], [])).2
      = [call.bind_params 0, call.run_prepared_impl .update 0,
          call.bind_params 0, call.run_prepared_impl .select 0] :=
  ⟨rfl,
    ((run_prepared_binds_then_executes example_connection).1
      example_prepared [] [] rfl).2.2.1,
    by decide⟩

/-- C8: `serializer_t::escape(arg)` returns exactly what `escape(arg)` of the connection the
serializer was constructed for returns, with nothing before or after it (and throws
exactly when that throws); an interpretation that asks for the escaped form goes on with
exactly that answer, on a stream the request has not written to. -/
theorem serializer_escape_is_connection_escape {W Q B : Type} :
    (∀ (context : serializer_t W Q B) (arg : String),
      context.escape arg = context._db.escape arg) ∧
    (∀ (db : connection W Q B) (arg : String),
      (serializer_t.init db).escape arg = db.escape arg) ∧
    (∀ (context : serializer_t W Q B) (arg : String)
        (rest : String → serialization),
      (serialization.escape arg rest).run context
        = (context._db.escape arg).bind (fun escaped => (rest escaped).run context)) :=
  ⟨fun _ _ => rfl, fun _ _ => rfl, fun _ _ _ => rfl⟩

/-- C9: every `prepare_*` variant serializes the statement into a fresh serializer and then
calls `prepare_impl` with the text of that serializer, the parameter count the statement
declares, and as expected number of result columns the statement's number of result
columns for `prepare_select` and 0 for `prepare_insert`, `prepare_update` and
`prepare_remove`. The text is the serialized SQL text of the statement, the concatenation
of the pieces its interpretation streams, and that call of `prepare_impl` is the only one
the variant makes (none when `escape` throws during the serialization). -/
theorem prepare_hands_over_text_and_counts {W Q B : Type} (db : connection W Q B)
    (s : statement) :
    db.prepare_select s
      = (interpret s (serializer_t.init db)).bind (fun context =>
          db.prepare_impl context.str s._get_no_of_parameters s.get_no_of_result_columns) ∧
    db.prepare_insert s
      = (interpret s (serializer_t.init db)).bind (fun context =>
          db.prepare_impl context.str s._get_no_of_parameters 0) ∧
    db.prepare_update s
      = (interpret s (serializer_t.init db)).bind (fun context =>
          db.prepare_impl context.str s._get_no_of_parameters 0) ∧
    db.prepare_remove s
      = (interpret s (serializer_t.init db)).bind (fun context =>
          db.prepare_impl context.str s._get_no_of_parameters 0) ∧
    (∀ w w' : W, s.serialization.finish db.escape w = (.ok (), w') →
      db.prepare_select s w
        = db.prepare_impl (String.join (s.serialization.pieces db.escape w))
            s._get_no_of_parameters s.get_no_of_result_columns w' ∧
      db.prepare_insert s w
        = db.prepare_impl (String.join (s.serialization.pieces db.escape w))
            s._get_no_of_parameters 0 w' ∧
      db.prepare_update s w
        = db.prepare_impl (String.join (s.serialization.pieces db.escape w))
            s._get_no_of_parameters 0 w' ∧
      db.prepare_remove s w
        = db.prepare_impl (String.join (s.serialization.pieces db.escape w))
            s._get_no_of_parameters 0 w') ∧
    ∀ (kind : statement_kind) (w : W) (log : List (call Q)),
      (db.logged.prepare_kind kind s (w, log)).2.2
        = log ++
          (match (s.serialization.finish db.escape w).1 with
            | .ok _ =>
              [call.prepare_impl (String.join (s.serialization.pieces db.escape w))
                s._get_no_of_parameters
                (if kind = .select then s.get_no_of_result_columns else 0)]
            | .error _ => []) := by
  refine ⟨rfl, rfl, rfl, rfl, ?_, fun kind w log => prepare_kind_logged db kind s w log⟩
  intro w w' hfin
  simp [connection.prepare_select, connection.prepare_insert,
    connection.prepare_update, connection.prepare_remove, bind_interpret_fresh, hfin,
    serializer_t.str]

/-- An instance of C9: preparing the example select and the example insert. -/
theorem prepare_hands_over_text_and_counts_witness :
    (example_connection.logged.prepare_kind .select example_select ([], [])).2.2
      = [call.prepare_impl "SELECT alpha,beta FROM tab_sample WHERE beta=?" 1 2] ∧
    (example_connection.logged.prepare_kind .insert example_insert ([], [])).2.2
      = [call.prepare_impl
          "INSERT INTO tab_sample (beta,gamma) VALUES('cheesecake',0)" 0 0] :=
  ⟨((prepare_hands_over_text_and_counts example_connection example_select).2.2.2.2.2
      .select [] []).trans (by decide),
    by decide⟩

theorem auto_rollback_message_ne_empty (what : String) :
    "auto rollback failed: " ++ what ≠ "" := by
  intro h
  have hlen := congrArg String.length h
  rw [String.length_append] at hlen
  have h22 : "auto rollback failed: ".length = 22 := by decide
  have h0 : "".length = 0 := by decide
  omega

theorem cleanup_returns (server : driver) (guard : TransactionGuard) (c : connection_data) :
    (guard.cleanup server c).1 = .ok () := by
  unfold TransactionGuard.cleanup
  cases guard.state with
  | Active =>
    simp only
    cases hr : connection_data.rollback_transaction server guard.report c with
    | mk outcome c' =>
      cases outcome with
      | error e => rfl
      | ok u => rfl
  | Inactive => rfl
  | Committed => rfl
  | RolledBack => rfl

/-- C5: on a connection whose `_transaction_active` is false, as it is on a freshly
constructed one, and with a server that executes the begin statement, a first
`start_transaction` succeeds and sets `_transaction_active`; a second one directly after
it fails with a transaction-state error and leaves the connection as the first one left
it, `_transaction_active` still true and no further statement sent. -/
theorem start_transaction_twice (server : driver) (c : connection_data)
    (hfresh : c._transaction_active = false)
    (hbegin : server c._handle.sent "START TRANSACTION" = .ok ()) :
    (∀ handle : detail.connection_handle,
      ({ _handle := handle } : connection_data)._transaction_active = false) ∧
    (connection_data.start_transaction server c).1 = .ok () ∧
    (connection_data.start_transaction server c).2._transaction_active = true ∧
    (∃ what, (connection_data.start_transaction server
        (connection_data.start_transaction server c).2).1
      = .error ⟨.TransactionStateError, what⟩) ∧
    (connection_data.start_transaction server
        (connection_data.start_transaction server c).2).2
      = (connection_data.start_transaction server c).2 ∧
    (connection_data.start_transaction server
        (connection_data.start_transaction server c).2).2._transaction_active = true := by
  have hfirst : connection_data.start_transaction server c
      = (.ok (), { c with _handle := { sent := c._handle.sent ++ ["START TRANSACTION"] },
                          _transaction_active := true }) := by
    simp [connection_data.start_transaction, execute_statement, hfresh, hbegin]
  rw [hfirst]
  refine ⟨fun _ => rfl, ?_⟩
  simp [connection_data.start_transaction]

/-- An instance of C5: a fresh connection and a server that executes every statement. -/
theorem start_transaction_twice_witness :
    ({ _handle := ⟨[]⟩ } : connection_data)._transaction_active = false ∧
    (fun _ _ => .ok () : driver) [] "START TRANSACTION" = .ok () ∧
    (connection_data.start_transaction (fun _ _ => .ok ()) { _handle := ⟨[]⟩ }).1 = .ok () ∧
    (connection_data.start_transaction (fun _ _ => .ok ())
        (connection_data.start_transaction (fun _ _ => .ok ()) { _handle := ⟨[]⟩ }).2).2
      = { _handle := ⟨["START TRANSACTION"]⟩, _transaction_active := true } :=
  ⟨rfl, rfl,
    (start_transaction_twice (fun _ _ => .ok ()) { _handle := ⟨[]⟩ } rfl rfl).2.1,
    rfl⟩

/-- C6: an implicit rollback, made by the automatic cleanup of a guard that is still
active, whose rollback statement the server fails, does not raise from the cleanup: the
cleanup returns normally, and the connection has recorded exactly one more message
through `report_rollback_failure`, a non-empty one. `report_rollback_failure` returns
normally for every message, and the cleanup returns normally in every case. -/
theorem implicit_rollback_failure_is_reported (server : driver) (guard : TransactionGuard)
    (c : connection_data) (e : exception)
    (hguard : guard.state = .Active)
    (hactive : c._transaction_active = true)
    (hfail : server c._handle.sent "ROLLBACK" = .error e) :
    (guard.cleanup server c).1 = .ok () ∧
    (∃ message, message ≠ "" ∧
      (guard.cleanup server c).2.reported = c.reported ++ [message]) ∧
    (∀ (message : String) (c' : connection_data),
      (connection_data.report_rollback_failure message c').1 = .ok () ∧
      (connection_data.report_rollback_failure message c').2.reported
        = c'.reported ++ [message]) ∧
    (∀ (server' : driver) (guard' : TransactionGuard) (c' : connection_data),
      (guard'.cleanup server' c').1 = .ok ()) := by
  refine ⟨cleanup_returns server guard c,
    ⟨"auto rollback failed: " ++ e.what, auto_rollback_message_ne_empty e.what, ?_⟩,
    fun _ _ => ⟨rfl, rfl⟩, cleanup_returns⟩
  cases hrep : guard.report <;>
  simp [TransactionGuard.cleanup, hguard, connection_data.rollback_transaction, hactive,
    execute_statement, hfail, hrep, connection_data.report_rollback_failure]

/-- An instance of C6: an active guard cleaned up while the server fails every statement. -/
theorem implicit_rollback_failure_is_reported_witness :
    (⟨.Active, true⟩ : TransactionGuard).state = .Active ∧
    ({ _handle := ⟨["START TRANSACTION"]⟩, _transaction_active := true }
      : connection_data)._transaction_active = true ∧
    (fun _ _ => .error ⟨.QueryExecutionError, "server has gone away"⟩ : driver)
        ["START TRANSACTION"] "ROLLBACK"
      = .error ⟨.QueryExecutionError, "server has gone away"⟩ ∧
    (TransactionGuard.cleanup
        (fun _ _ => .error ⟨.QueryExecutionError, "server has gone away"⟩) ⟨.Active, true⟩
        { _handle := ⟨["START TRANSACTION"]⟩, _transaction_active := true }).1 = .ok () ∧
    (TransactionGuard.cleanup
        (fun _ _ => .error ⟨.QueryExecutionError, "server has gone away"⟩) ⟨.Active, true⟩
        { _handle := ⟨["START TRANSACTION"]⟩, _transaction_active := true }).2.reported
      = ["auto rollback failed: server has gone away"] :=
  ⟨rfl, rfl, rfl,
    (implicit_rollback_failure_is_reported
      (fun _ _ => .error ⟨.QueryExecutionError, "server has gone away"⟩) ⟨.Active, true⟩
      { _handle := ⟨["START TRANSACTION"]⟩, _transaction_active := true }
      ⟨.QueryExecutionError, "server has gone away"⟩ rfl rfl rfl).1,
    by decide⟩

end mysql
end sqlpp
